import Mathlib

/-!
Verification of the federated Q-learning / trust routing core of `osken.py`
(class `SDNQLTRFederatedController`).

The controller state consists of three Python dictionaries:
  * `q_values`        : datapath id ↦ src ↦ dst ↦ action ↦ float  (local Q-tables)
  * `global_q_values` : src ↦ dst ↦ action ↦ float                (global Q-table)
  * `trust_values`    : address ↦ float                           (trust scores)

Python dictionaries preserve insertion order, look up by key equality, keep a
key's position when its value is overwritten, and append fresh keys at the end.
We model them as association lists over `Nat` keys (addresses, datapath ids and
actions are opaque identifiers) with exactly those operations, and floats as
rationals.  Fallible steps (Python `TypeError` / `ValueError`) are modelled with
`Except`, the error carrying the state as already mutated when the exception is
raised, since the Python code mutates `self` in place before the raising line.
-/

/-- Python `d.get(key)` on an insertion-ordered dictionary: the value stored at
`key`, if any. -/
def getA {β : Type} : List (Nat × β) → Nat → Option β
  | [], _ => none
  | (k, v) :: rest, key => if key = k then some v else getA rest key

/-- Python `d[key] = val` on an insertion-ordered dictionary: overwrite in place
if `key` is present (keeping its position), otherwise append at the end. -/
def setA {β : Type} : List (Nat × β) → Nat → β → List (Nat × β)
  | [], key, val => [(key, val)]
  | (k, v) :: rest, key, val =>
      if key = k then (key, val) :: rest else (k, v) :: setA rest key val

/-- Action-value dictionary of one flow: action ↦ Q-value. -/
abbrev QEntry := List (Nat × ℚ)

/-- Per-source dictionary: destination address ↦ `QEntry`. -/
abbrev DstMap := List (Nat × QEntry)

/-- One Q-table: source address ↦ `DstMap`.  This is the shape of
`global_q_values` and of each per-datapath local table. -/
abbrev SrcMap := List (Nat × DstMap)

/-- The local store: datapath id ↦ `SrcMap`. -/
abbrev LocalQTable := List (Nat × SrcMap)

/-- Trust table: address ↦ trust score. -/
abbrev TrustTable := List (Nat × ℚ)

instance instDecEqQEntry : DecidableEq QEntry := inferInstance

instance instDecEqDstMap : DecidableEq DstMap := inferInstance

instance instDecEqSrcMap : DecidableEq SrcMap := inferInstance

instance instDecEqLocalQTable : DecidableEq LocalQTable := inferInstance

/-- The mutable state of `SDNQLTRFederatedController`:
`self.q_values`, `self.global_q_values`, `self.trust_values`. -/
structure ControllerState where
  q_values : LocalQTable
  global_q_values : SrcMap
  trust_values : TrustTable
deriving Repr, DecidableEq

instance instDecEqExcept {ε α : Type} [DecidableEq ε] [DecidableEq α] :
    DecidableEq (Except ε α)
  | .error a, .error b => decidable_of_iff (a = b) (by simp)
  | .error _, .ok _ => isFalse (by simp)
  | .ok _, .error _ => isFalse (by simp)
  | .ok a, .ok b => decidable_of_iff (a = b) (by simp)

/-- `self.learning_rate = 0.6`. -/
def learning_rate : ℚ := 6/10

/-- `self.discount_factor = 0.95`. -/
def discount_factor : ℚ := 19/20

/-- OpenFlow 1.3 `ofproto.OFPP_FLOOD`, the fallback broadcast action. -/
def OFPP_FLOOD : Nat := 0xfffffffb

/-- The controller's `__init__` state: all three dictionaries empty. -/
def initState : ControllerState := ⟨[], [], []⟩

/-- `update_local_q_table(self, datapath_id, src, dst, action, reward)`.

Lines 86–92 lazily create `q_values[datapath_id]`, `[src]`, `[src][dst]`.
Line 94 reads `old_value = q_values[datapath_id][src][dst].get(action, 0)`.
Line 95 computes `next_max = max(q_values.get(datapath_id, {}).get(dst, {}).values(), default=0)`:
the values of `q_values[datapath_id].get(dst, {})` are themselves dictionaries
(destination ↦ action ↦ value), not numbers.  When that collection is empty,
`max(..., default=0)` yields the number `0` and the update succeeds.  When it is
non-empty, Python either returns its sole element (a `dict`) or fails outright
comparing two `dict`s, and in the first case the very next expression
`self.discount_factor * next_max` multiplies a float by a `dict`; either way a
`TypeError` is raised at line 95/96, after the lazy initialisations of lines
86–92 have already mutated `self.q_values`.  We return that mutated state in
the `.error` case. -/
def update_local_q_table (s : ControllerState) (datapath_id src dst action : Nat)
    (reward : ℚ) : Except ControllerState ControllerState :=
  let q0 : LocalQTable :=
    if (getA s.q_values datapath_id).isNone then setA s.q_values datapath_id [] else s.q_values
  let dpTable0 : SrcMap := (getA q0 datapath_id).getD []
  let dpTable1 : SrcMap :=
    if (getA dpTable0 src).isNone then setA dpTable0 src [] else dpTable0
  let srcTable0 : DstMap := (getA dpTable1 src).getD []
  let srcTable1 : DstMap :=
    if (getA srcTable0 dst).isNone then setA srcTable0 dst [] else srcTable0
  let dpTable2 : SrcMap := setA dpTable1 src srcTable1
  let q1 : LocalQTable := setA q0 datapath_id dpTable2
  let entry : QEntry := (getA srcTable1 dst).getD []
  let old_value : ℚ := (getA entry action).getD 0
  match (getA dpTable2 dst).getD [] with
  | [] =>
      let next_max : ℚ := 0
      let new_value : ℚ :=
        old_value + learning_rate * (reward + discount_factor * next_max - old_value)
      let q2 : LocalQTable :=
        setA q1 datapath_id
          (setA dpTable2 src (setA srcTable1 dst (setA entry action new_value)))
      .ok { s with q_values := q2 }
  | _ :: _ =>
      .error { s with q_values := q1 }

/-- Python `max(keys, key=d.get)` starting from first key `bk` with value `bv`:
a later key replaces the current best only when its value is strictly greater,
so ties keep the earliest key, exactly as Python's `max`. -/
def best_key : List (Nat × ℚ) → Nat → ℚ → Nat
  | [], bk, _ => bk
  | (k, v) :: rest, bk, bv => if v > bv then best_key rest k v else best_key rest bk bv

/-- `federated_decision(self, datapath, src, dst)`.

Lines 75–78 lazily create `global_q_values[src]` and, if `(src, dst)` is
missing, initialise `global_q_values[src][dst] = {OFPP_FLOOD: random.random()}`;
the random draw is the parameter `rand`.  Line 81 takes
`best_action = max(global_q_values[src][dst], key=global_q_values[src][dst].get)`,
which raises `ValueError` on an empty dictionary (only possible when a
pre-existing `(src, dst)` entry is empty; the `.error` carries the state with
the line 75–78 mutations applied).  Line 82 returns `best_action` when
`trust_values.get(src, 1.0) >= 0.5` and `OFPP_FLOOD` otherwise. -/
def federated_decision (s : ControllerState) (src dst : Nat) (rand : ℚ) :
    Except ControllerState (Nat × ControllerState) :=
  let g0 : SrcMap :=
    if (getA s.global_q_values src).isNone then setA s.global_q_values src []
    else s.global_q_values
  let srcTable0 : DstMap := (getA g0 src).getD []
  let srcTable1 : DstMap :=
    if (getA srcTable0 dst).isNone then setA srcTable0 dst [(OFPP_FLOOD, rand)] else srcTable0
  let g1 : SrcMap := setA g0 src srcTable1
  let s1 : ControllerState := { s with global_q_values := g1 }
  match (getA srcTable1 dst).getD [] with
  | [] => .error s1
  | (k, v) :: rest =>
      let best_action : Nat := best_key rest k v
      .ok (if (getA s.trust_values src).getD 1 ≥ 1/2 then best_action else OFPP_FLOOD, s1)

/-- Inner loop of `aggregate_global_q_values` (lines 111–115): merge one local
action dictionary into the global one, in the local dictionary's iteration
order; an absent action is copied verbatim, a present one is replaced by the
average of the existing global value and the incoming local value. -/
def merge_entry (g l : QEntry) : QEntry :=
  l.foldl
    (fun acc p =>
      match getA acc p.1 with
      | none => setA acc p.1 p.2
      | some gv => setA acc p.1 ((gv + p.2) / 2)) g

/-- Middle loop of `aggregate_global_q_values` (lines 106–115): for each
destination of one local source entry, create the global `(src, dst)` slot if
absent (line 107–108) and merge the action values into it. -/
def merge_dst (g l : DstMap) : DstMap :=
  l.foldl (fun acc p => setA acc p.1 (merge_entry ((getA acc p.1).getD []) p.2)) g

/-- Outer source loop of `aggregate_global_q_values` (lines 103–115): create
the global `src` slot if absent (lines 104–105) and merge its destinations. -/
def merge_src (g l : SrcMap) : SrcMap :=
  l.foldl (fun acc p => setA acc p.1 (merge_dst ((getA acc p.1).getD []) p.2)) g

/-- `aggregate_global_q_values(self)`: fold every datapath's local table into
`global_q_values`, in the local store's iteration order.  (Line 101 deep-copies
`q_values` into a variable that is never used; local tables and trust values
are only read.) -/
def aggregate_global_q_values (s : ControllerState) : ControllerState :=
  let g : SrcMap := s.q_values.foldl (fun g p => merge_src g p.2) s.global_q_values
  { s with global_q_values := g }

/-- `redistribute_global_model(self)`: overwrite every datapath's local table
with a deep copy of the current `global_q_values`. -/
def redistribute_global_model (s : ControllerState) : ControllerState :=
  { s with q_values := s.q_values.map (fun p => (p.1, s.global_q_values)) }

/-- `update_trust(self, node, success_rate)`:
`trust_values[node] = 0.9 * trust_values.get(node, 1.0) + 0.1 * success_rate`. -/
def update_trust (s : ControllerState) (node : Nat) (success_rate : ℚ) : ControllerState :=
  let t : TrustTable :=
    setA s.trust_values node
      (9/10 * (getA s.trust_values node).getD 1 + 1/10 * success_rate)
  { s with trust_values := t }

/-- `trust_values.get(addr, 1.0)`, the trust score read used by
`federated_decision` (spec operation `trustOf`). -/
def trustOf (s : ControllerState) (node : Nat) : ℚ :=
  (getA s.trust_values node).getD 1

/-- `n` successive calls `update_trust(node, q)` on state `s`. -/
def trust_iter (s : ControllerState) (node : Nat) (q : ℚ) : Nat → ControllerState
  | 0 => s
  | n + 1 => update_trust (trust_iter s node q n) node q

/-- The state after an operation that may raise: Python exceptions leave the
already-performed mutations of `self` in place. -/
def exceptState : Except ControllerState ControllerState → ControllerState
  | .ok t => t
  | .error t => t

/-- Whether an operation raised. -/
def exceptIsError {α : Type} : Except ControllerState α → Bool
  | .ok _ => false
  | .error _ => true

/-- The controller state after `federated_decision`, whether or not it raised. -/
def fdState : Except ControllerState (Nat × ControllerState) → ControllerState
  | .ok p => p.2
  | .error t => t

/-- Three-level lookup `g[src][dst][action]` on a Q-table, `none` when any
level is missing. -/
def lookup3 (g : SrcMap) (src dst action : Nat) : Option ℚ :=
  getA ((getA ((getA g src).getD []) dst).getD []) action

/-- The action returned by `federated_decision`, `none` when it raised. -/
def fdAction : Except ControllerState (Nat × ControllerState) → Option Nat
  | .ok p => some p.1
  | .error _ => none

/-- The synchronisation step of the packet handler (lines 68–70):
`aggregate_global_q_values()` followed by `redistribute_global_model()`. -/
def aggregate_then_redistribute (s : ControllerState) : ControllerState :=
  redistribute_global_model (aggregate_global_q_values s)

/-- Setting a key then reading it gives the value just written: Python
`d[k] = v; d[k] == v`. -/
theorem getA_setA_self {β : Type} (l : List (Nat × β)) (k : Nat) (v : β) :
    getA (setA l k v) k = some v := by
  induction l with
  | nil => simp [setA, getA]
  | cons p rest ih =>
      obtain ⟨a, b⟩ := p
      by_cases h : k = a
      · simp [setA, h, getA]
      · simp [setA, h, getA, ih]

/-- Setting one key does not change the value of any other key. -/
theorem getA_setA_ne {β : Type} (l : List (Nat × β)) {k k' : Nat} (v : β) (h : k' ≠ k) :
    getA (setA l k v) k' = getA l k' := by
  induction l with
  | nil => simp [setA, getA, h]
  | cons p rest ih =>
      obtain ⟨a, b⟩ := p
      by_cases hk : k = a
      · subst hk
        simp [setA, getA, h]
      · simp [setA, getA, hk, ih]

/-- Writing back a value that is already stored leaves the dictionary
unchanged. -/
theorem setA_eq_of_getA {β : Type} {l : List (Nat × β)} {k : Nat} {v : β}
    (h : getA l k = some v) : setA l k v = l := by
  induction l with
  | nil => simp [getA] at h
  | cons p rest ih =>
      obtain ⟨a, b⟩ := p
      by_cases hk : k = a
      · subst hk
        simp [getA] at h
        simp [setA, h]
      · simp [getA, hk] at h
        simp [setA, hk, ih h]

/-- Two successive writes to the same key collapse to the last one. -/
theorem setA_setA {β : Type} (l : List (Nat × β)) (k : Nat) (a b : β) :
    setA (setA l k a) k b = setA l k b := by
  induction l with
  | nil => simp [setA]
  | cons p rest ih =>
      obtain ⟨x, y⟩ := p
      by_cases h : k = x
      · simp [setA, h]
      · simp [setA, h, ih]

/-- Lookup commutes with mapping all values to a constant. -/
theorem getA_map_const {β γ : Type} (l : List (Nat × β)) (g : γ) (k : Nat) :
    getA (l.map (fun p => (p.1, g))) k = (getA l k).map (fun _ => g) := by
  induction l with
  | nil => simp [getA]
  | cons p rest ih =>
      obtain ⟨a, b⟩ := p
      by_cases hk : k = a
      · simp [getA, hk]
      · simp [getA, hk, ih]

/-- One `update_trust` step, read back at the same node: the exponential
moving average `0.9 * old + 0.1 * successRate`. -/
theorem trustOf_update_self (s : ControllerState) (node : Nat) (q : ℚ) :
    trustOf (update_trust s node q) node = 9/10 * trustOf s node + 1/10 * q := by
  simp [trustOf, update_trust, getA_setA_self]

/-- Closed form of `n` repetitions of `update_trust node 0`: the score decays
geometrically from its starting value. -/
theorem trustOf_trust_iter_zero (s : ControllerState) (node : Nat) (n : Nat) :
    trustOf (trust_iter s node 0 n) node = (9/10 : ℚ) ^ n * trustOf s node := by
  induction n with
  | zero => simp [trust_iter]
  | succ n ih =>
      rw [trust_iter, trustOf_update_self, ih]
      ring

/-- C7: starting from any state whose current trust score for `addr` is
non-negative (as guaranteed when all prior success rates were in `[0, 1]`),
repeated `update_trust(addr, 0.0)` yields the geometric sequence
`(9/10)^n * t₀`, which is monotonically decreasing, never below `0`, and
eventually below any positive bound. -/
theorem c7_trust_decay_to_zero (s : ControllerState) (node : Nat)
    (h : 0 ≤ trustOf s node) :
    (∀ n : Nat, trustOf (trust_iter s node 0 n) node = (9/10 : ℚ) ^ n * trustOf s node) ∧
    (∀ n : Nat,
      trustOf (trust_iter s node 0 (n + 1)) node ≤ trustOf (trust_iter s node 0 n) node) ∧
    (∀ n : Nat, 0 ≤ trustOf (trust_iter s node 0 n) node) ∧
    (∀ ε : ℚ, 0 < ε → ∃ N : Nat, ∀ n : Nat, N ≤ n →
      trustOf (trust_iter s node 0 n) node < ε) := by
  have hform := trustOf_trust_iter_zero s node
  have h0 : (0:ℚ) ≤ 9/10 := by norm_num
  have h1 : (9/10:ℚ) ≤ 1 := by norm_num
  refine ⟨hform, ?_, ?_, ?_⟩
  · intro n
    rw [hform, hform]
    exact mul_le_mul_of_nonneg_right (pow_le_pow_of_le_one h0 h1 (Nat.le_succ n)) h
  · intro n
    rw [hform]
    exact mul_nonneg (pow_nonneg h0 n) h
  · intro ε hε
    have hden : (0:ℚ) < trustOf s node + 1 := by linarith
    obtain ⟨N, hN⟩ := exists_pow_lt_of_lt_one (div_pos hε hden) (by norm_num : (9/10:ℚ) < 1)
    refine ⟨N, fun n hn => ?_⟩
    rw [hform]
    have step1 : (9/10 : ℚ) ^ n * trustOf s node ≤ (9/10 : ℚ) ^ N * trustOf s node :=
      mul_le_mul_of_nonneg_right (pow_le_pow_of_le_one h0 h1 hn) h
    have step2 : (9/10 : ℚ) ^ N * trustOf s node ≤ (9/10 : ℚ) ^ N * (trustOf s node + 1) :=
      mul_le_mul_of_nonneg_left (by linarith) (pow_nonneg h0 N)
    have step3 : (9/10 : ℚ) ^ N * (trustOf s node + 1) < ε / (trustOf s node + 1) * (trustOf s node + 1) :=
      mul_lt_mul_of_pos_right hN hden
    have step4 : ε / (trustOf s node + 1) * (trustOf s node + 1) = ε :=
      div_mul_cancel₀ ε (ne_of_gt hden)
    linarith

/-- Witness for C7 at the freshly initialised controller (default trust 1). -/
theorem c7_trust_decay_to_zero_witness :
    (0:ℚ) ≤ trustOf initState 4 ∧
    trustOf (trust_iter initState 4 0 2) 4 = (9/10 : ℚ) ^ 2 * trustOf initState 4 :=
  ⟨by norm_num [trustOf, initState, getA],
   (c7_trust_decay_to_zero initState 4 (by norm_num [trustOf, initState, getA])).1 2⟩

/-- C8: on an address with no stored trust entry (default `1.0`), one
`update_trust(addr, 1.0)` leaves the score exactly `1`: full trust with a
perfect success rate is a fixed point of `0.9 * old + 0.1 * successRate`. -/
theorem c8_full_trust_fixed_point (s : ControllerState) (node : Nat)
    (h : getA s.trust_values node = none) :
    trustOf (update_trust s node 1) node = 1 := by
  rw [trustOf_update_self]
  simp [trustOf, h]
  norm_num

/-- Witness for C8 at the freshly initialised controller. -/
theorem c8_full_trust_fixed_point_witness :
    getA initState.trust_values 7 = none ∧ trustOf (update_trust initState 7 1) 7 = 1 :=
  ⟨rfl, c8_full_trust_fixed_point initState 7 rfl⟩

/-- C9: `aggregate_global_q_values` only writes the global table: every
datapath's local table and the trust table are exactly what they were. -/
theorem c9_aggregate_preserves_locals (s : ControllerState) :
    (aggregate_global_q_values s).q_values = s.q_values ∧
    (aggregate_global_q_values s).trust_values = s.trust_values :=
  ⟨rfl, rfl⟩

/-- C10: `update_trust(addr, successRate)` touches only the trust entry of
`addr`: every other address keeps its trust value and both Q-stores are
unchanged. -/
theorem c10_update_trust_frame (s : ControllerState) (node b : Nat) (q : ℚ)
    (h : b ≠ node) :
    getA (update_trust s node q).trust_values b = getA s.trust_values b ∧
    (update_trust s node q).q_values = s.q_values ∧
    (update_trust s node q).global_q_values = s.global_q_values := by
  refine ⟨?_, rfl, rfl⟩
  simp [update_trust, getA_setA_ne _ _ h]

/-- Witness for C10 at the freshly initialised controller. -/
theorem c10_update_trust_frame_witness :
    (3 : Nat) ≠ 7 ∧
    (getA (update_trust initState 7 (1/2)).trust_values 3 = getA initState.trust_values 3 ∧
     (update_trust initState 7 (1/2)).q_values = initState.q_values ∧
     (update_trust initState 7 (1/2)).global_q_values = initState.global_q_values) :=
  ⟨by decide, c10_update_trust_frame initState 7 3 (1/2) (by decide)⟩

/-- C1: the totality claim fails on `update_local_q_table`.  First,
`update_local_q_table(0, src=2, dst=3, action=5, reward=1)` succeeds on the
fresh controller (the `dst`-keyed lookup is empty, so `max(..., default=0)`
is `0`).  On the resulting state, datapath `0`'s table has `2` as a source
key, so `update_local_q_table(0, src=1, dst=2, action=4, reward=1)` finds a
non-empty dictionary at `q_values[0].get(2, {})`; `max` over its `.values()`
hands back a `dict`, and `discount_factor * next_max` raises `TypeError`. -/
theorem c1_update_local_q_table_type_error :
    exceptIsError (update_local_q_table initState 0 2 3 5 1) = false ∧
    exceptIsError
      (update_local_q_table (exceptState (update_local_q_table initState 0 2 3 5 1))
        0 1 2 4 1) = true :=
  ⟨rfl, rfl⟩

/-- C3: one Q-learning step on a single switch `dp1 = 1` for the flow
`A = 10 → B = 20`, whose entry holds the fallback action with value `v`, with
an empty next-state lookup (`nextMax = 0`), stores exactly
`v + 0.6 * (1 + 0.95 * 0 - v)`. -/
theorem c3_q_update_formula (v : ℚ) :
    update_local_q_table ⟨[(1, [(10, [(20, [(OFPP_FLOOD, v)])])])], [], []⟩
        1 10 20 OFPP_FLOOD 1 =
      .ok ⟨[(1, [(10, [(20, [(OFPP_FLOOD, v + 6/10 * (1 + 19/20 * 0 - v))])])])], [], []⟩ := by
  simp [update_local_q_table, getA, setA, learning_rate, discount_factor]

/-- The state left behind by `update_local_q_table`, on the success path and
on the `TypeError` path alike, keeps `global_q_values` and `trust_values`
untouched: the function only writes `q_values`. -/
theorem update_local_global_trust_frame (t : ControllerState)
    (dp src dst a : Nat) (r : ℚ) :
    (exceptState (update_local_q_table t dp src dst a r)).global_q_values =
      t.global_q_values ∧
    (exceptState (update_local_q_table t dp src dst a r)).trust_values =
      t.trust_values := by
  simp only [update_local_q_table]
  constructor <;> (split_ifs <;> (split <;> rfl))

/-- `update_local_q_table` on datapath `dp` leaves every other datapath's
local table unchanged, again on both the success and the `TypeError` path. -/
theorem update_local_q_frame (t : ControllerState) (dp dp' src dst a : Nat) (r : ℚ)
    (hne : dp' ≠ dp) :
    getA (exceptState (update_local_q_table t dp src dst a r)).q_values dp' =
      getA t.q_values dp' := by
  simp only [update_local_q_table]
  split_ifs <;> (split <;> simp [exceptState, getA_setA_ne _ _ hne])

/-- C2 counterexample: `federated_decision` is not read-only on
`global_q_values`.  On the fresh controller, deciding for flow `1 → 2` with
random draw `1/2` fabricates the entry `{1: {2: {OFPP_FLOOD: 1/2}}}` (lines
75–78 of the source), so the global table changes without any aggregation. -/
theorem c2_decision_writes_global_counterexample :
    (fdState (federated_decision initState 1 2 (1/2))).global_q_values ≠
      initState.global_q_values := by
  simp [federated_decision, fdState, initState, getA, setA]

/-- C2 amended: `global_q_values` is written only by
`aggregate_global_q_values` (merging) and by `federated_decision`, which, when
the `(src, dst)` entry is missing, initialises it with exactly the fallback
action mapped to the random draw; `update_local_q_table`, `update_trust` and
`redistribute_global_model` never modify the global table, and
`federated_decision` leaves it unchanged whenever the `(src, dst)` entry
already exists. -/
theorem c2_global_written_only_by_aggregate_and_decide (s : ControllerState)
    (dp src dst a node : Nat) (r q rand : ℚ) :
    (exceptState (update_local_q_table s dp src dst a r)).global_q_values =
      s.global_q_values ∧
    (update_trust s node q).global_q_values = s.global_q_values ∧
    (redistribute_global_model s).global_q_values = s.global_q_values ∧
    (∀ e : QEntry, getA ((getA s.global_q_values src).getD []) dst = some e →
      (fdState (federated_decision s src dst rand)).global_q_values =
        s.global_q_values) ∧
    (getA ((getA s.global_q_values src).getD []) dst = none →
      (fdState (federated_decision s src dst rand)).global_q_values =
        setA s.global_q_values src
          (setA ((getA s.global_q_values src).getD []) dst [(OFPP_FLOOD, rand)])) := by
  refine ⟨(update_local_global_trust_frame s dp src dst a r).1, rfl, rfl, ?_, ?_⟩
  · intro e he
    rcases hsrc : getA s.global_q_values src with _ | m
    · rw [hsrc] at he
      simp [getA] at he
    · rw [hsrc] at he
      simp only [Option.getD_some] at he
      have hsmall : setA s.global_q_values src m = s.global_q_values :=
        setA_eq_of_getA hsrc
      rcases e with _ | ⟨⟨k, v⟩, rest⟩ <;>
        simp [federated_decision, fdState, hsrc, he, hsmall]
  · intro hnone
    rcases hsrc : getA s.global_q_values src with _ | m
    · rw [hsrc] at hnone
      simp only [Option.getD_none] at hnone
      simp [federated_decision, fdState, hsrc, getA_setA_self, getA, setA_setA]
    · rw [hsrc] at hnone
      simp only [Option.getD_some] at hnone
      simp [federated_decision, fdState, hsrc, hnone, getA_setA_self]

/-- Witness for C2's amended theorem: on the fresh controller the `(1, 2)`
entry is absent and the decision step writes exactly the fallback
initialisation. -/
theorem c2_global_written_only_by_aggregate_and_decide_witness :
    getA ((getA initState.global_q_values 1).getD []) 2 = none ∧
    (fdState (federated_decision initState 1 2 (1/2))).global_q_values =
      setA initState.global_q_values 1
        (setA ((getA initState.global_q_values 1).getD []) 2 [(OFPP_FLOOD, 1/2)]) :=
  ⟨rfl,
   (c2_global_written_only_by_aggregate_and_decide initState 0 1 2 3 4 0 0 (1/2)).2.2.2.2 rfl⟩

/-- One source's single-action contribution merged into an arbitrary global
table: if the `(src, dst, action)` slot is absent the local value is copied
verbatim, otherwise it is replaced by the pairwise average. -/
theorem lookup3_merge_single (g : SrcMap) (src dst a : Nat) (v : ℚ) :
    lookup3 (merge_src g [(src, [(dst, [(a, v)])])]) src dst a =
      some ((lookup3 g src dst a).elim v (fun w => (w + v) / 2)) := by
  simp only [merge_src, merge_dst, merge_entry, List.foldl, lookup3]
  rcases h : getA ((getA ((getA g src).getD []) dst).getD []) a with _ | w
  · simp [getA_setA_self]
  · simp [getA_setA_self]

/-- C4: `aggregate_global_q_values` merges by sequential pairwise averaging:
into an arbitrary global table, an absent `(src, dst, action)` key receives
the local value verbatim and a present one the mean of global and local
value; for two datapaths reporting `v1` and `v2` on a key the global table
does not yet hold, the result is `(v1 + v2) / 2`, in particular `3` for the
reported values `2` and `4`. -/
theorem c4_aggregate_pairwise_average (g : SrcMap) (src dst a : Nat) (v v1 v2 : ℚ) :
    (lookup3 g src dst a = none →
      lookup3 (aggregate_global_q_values
          ⟨[(1, [(src, [(dst, [(a, v)])])])], g, []⟩).global_q_values src dst a =
        some v) ∧
    (∀ w : ℚ, lookup3 g src dst a = some w →
      lookup3 (aggregate_global_q_values
          ⟨[(1, [(src, [(dst, [(a, v)])])])], g, []⟩).global_q_values src dst a =
        some ((w + v) / 2)) ∧
    (lookup3 g src dst a = none →
      lookup3 (aggregate_global_q_values
          ⟨[(1, [(src, [(dst, [(a, v1)])])]), (2, [(src, [(dst, [(a, v2)])])])],
            g, []⟩).global_q_values src dst a =
        some ((v1 + v2) / 2)) ∧
    lookup3 (aggregate_global_q_values
        ⟨[(1, [(10, [(20, [(7, 2)])])]), (2, [(10, [(20, [(7, 4)])])])],
          [], []⟩).global_q_values 10 20 7 = some 3 := by
  refine ⟨?_, ?_, ?_, ?_⟩
  · intro h
    simp [aggregate_global_q_values, lookup3_merge_single, h]
  · intro w h
    simp [aggregate_global_q_values, lookup3_merge_single, h]
  · intro h
    simp [aggregate_global_q_values, lookup3_merge_single, h]
  · have hnil : lookup3 ([] : SrcMap) 10 20 7 = none := rfl
    simp [aggregate_global_q_values, lookup3_merge_single, hnil]
    norm_num

/-- Witness for C4: aggregating a single report into the empty global table
copies its value verbatim. -/
theorem c4_aggregate_pairwise_average_witness :
    lookup3 ([] : SrcMap) 5 6 7 = none ∧
    lookup3 (aggregate_global_q_values
        ⟨[(1, [(5, [(6, [(7, 9)])])])], [], []⟩).global_q_values 5 6 7 = some 9 :=
  ⟨rfl, (c4_aggregate_pairwise_average [] 5 6 7 9 0 0).1 rfl⟩

/-- C5: immediately after `aggregate_global_q_values` followed by
`redistribute_global_model`, every datapath present in the local store holds
a table equal to the global table at that instant; and because each datapath
holds its own copy, a subsequent `update_local_q_table` on datapath `dp`
leaves every other datapath's table and the global table unchanged. -/
theorem c5_redistribute_sync_and_deep_copy (s : ControllerState)
    (dp dp' src dst a : Nat) (r : ℚ) (m : SrcMap)
    (hdp : getA (aggregate_then_redistribute s).q_values dp = some m)
    (hne : dp' ≠ dp) :
    m = (aggregate_then_redistribute s).global_q_values ∧
    getA (exceptState
        (update_local_q_table (aggregate_then_redistribute s) dp src dst a r)).q_values
      dp' = getA (aggregate_then_redistribute s).q_values dp' ∧
    (exceptState
        (update_local_q_table (aggregate_then_redistribute s) dp src dst a r)).global_q_values =
      (aggregate_then_redistribute s).global_q_values := by
  refine ⟨?_, update_local_q_frame _ dp dp' src dst a r hne,
    (update_local_global_trust_frame _ dp src dst a r).1⟩
  have hform : getA (aggregate_then_redistribute s).q_values dp =
      (getA (aggregate_global_q_values s).q_values dp).map
        (fun _ => (aggregate_global_q_values s).global_q_values) := by
    simp [aggregate_then_redistribute, redistribute_global_model, getA_map_const]
  rw [hform] at hdp
  rcases hx : getA (aggregate_global_q_values s).q_values dp with _ | y
  · rw [hx] at hdp
    simp at hdp
  · rw [hx] at hdp
    simp only [Option.map_some'] at hdp
    exact (Option.some.injEq _ _).mp hdp |>.symm ▸ rfl

/-- Witness for C5 on a two-switch store whose reports do not overlap. -/
theorem c5_redistribute_sync_and_deep_copy_witness :
    getA (aggregate_then_redistribute
        ⟨[(1, [(10, [(20, [(7, 2)])])]), (2, [(11, [(21, [(8, 4)])])])], [], []⟩).q_values 1 =
      some [(10, [(20, [(7, 2)])]), (11, [(21, [(8, 4)])])] ∧
    (2 : Nat) ≠ 1 ∧
    ([(10, [(20, [(7, 2)])]), (11, [(21, [(8, 4)])])] : SrcMap) =
      (aggregate_then_redistribute
        ⟨[(1, [(10, [(20, [(7, 2)])])]), (2, [(11, [(21, [(8, 4)])])])], [], []⟩).global_q_values ∧
    getA (exceptState (update_local_q_table
        (aggregate_then_redistribute
          ⟨[(1, [(10, [(20, [(7, 2)])])]), (2, [(11, [(21, [(8, 4)])])])], [], []⟩)
        1 30 40 50 1)).q_values 2 =
      getA (aggregate_then_redistribute
        ⟨[(1, [(10, [(20, [(7, 2)])])]), (2, [(11, [(21, [(8, 4)])])])], [], []⟩).q_values 2 ∧
    (exceptState (update_local_q_table
        (aggregate_then_redistribute
          ⟨[(1, [(10, [(20, [(7, 2)])])]), (2, [(11, [(21, [(8, 4)])])])], [], []⟩)
        1 30 40 50 1)).global_q_values =
      (aggregate_then_redistribute
        ⟨[(1, [(10, [(20, [(7, 2)])])]), (2, [(11, [(21, [(8, 4)])])])], [], []⟩).global_q_values :=
  ⟨rfl, by decide,
    c5_redistribute_sync_and_deep_copy
      ⟨[(1, [(10, [(20, [(7, 2)])])]), (2, [(11, [(21, [(8, 4)])])])], [], []⟩
      1 2 30 40 50 1 [(10, [(20, [(7, 2)])]), (11, [(21, [(8, 4)])])] rfl (by decide)⟩

/-- C6: whenever the trust score of `src` (default `1.0`) is strictly below
`0.5`, `federated_decision` returns the fallback flood action, whatever the
global table holds (any pre-existing `(src, dst)` entry being non-empty, as
every entry the controller ever creates is). -/
theorem c6_low_trust_forces_flood (s : ControllerState) (src dst : Nat) (rand : ℚ)
    (htrust : trustOf s src < 1/2)
    (hwf : ∀ e : QEntry, getA ((getA s.global_q_values src).getD []) dst = some e → e ≠ []) :
    fdAction (federated_decision s src dst rand) = some OFPP_FLOOD := by
  have htlow : (getA s.trust_values src).getD 1 < 1/2 := by
    simpa [trustOf] using htrust
  rcases hsrc : getA s.global_q_values src with _ | m
  · simp only [federated_decision, fdAction, hsrc, Option.isNone_none, if_true,
      getA_setA_self, Option.getD_some]
    simp [getA, getA_setA_self]
    intro hc
    exfalso
    linarith
  · rcases hdst : getA m dst with _ | e
    · simp only [federated_decision, fdAction, hsrc, Option.isNone_some,
        Bool.false_eq_true, if_false, Option.getD_some, hdst, Option.isNone_none, if_true]
      simp [getA_setA_self]
      intro hc
      exfalso
      linarith
    · have he : e ≠ [] := hwf e (by rw [hsrc]; simpa using hdst)
      rcases e with _ | ⟨⟨k, v⟩, rest⟩
      · exact absurd rfl he
      · simp only [federated_decision, fdAction, hsrc, Option.isNone_some,
          Bool.false_eq_true, if_false, Option.getD_some, hdst, Option.isNone_none]
        simp [hdst]
        intro hc
        exfalso
        linarith

/-- Witness for C6: trust `1/4` forces flooding although action `9` has the
highest global value for the flow. -/
theorem c6_low_trust_forces_flood_witness :
    trustOf ⟨[], [(1, [(2, [(9, 5)])])], [(1, 1/4)]⟩ 1 < 1/2 ∧
    fdAction (federated_decision ⟨[], [(1, [(2, [(9, 5)])])], [(1, 1/4)]⟩ 1 2 (1/3)) =
      some OFPP_FLOOD :=
  ⟨by norm_num [trustOf, getA],
   c6_low_trust_forces_flood ⟨[], [(1, [(2, [(9, 5)])])], [(1, 1/4)]⟩ 1 2 (1/3)
     (by norm_num [trustOf, getA])
     (by
       intro e he
       simp [getA] at he
       subst he
       simp)⟩
